import Mathlib

/-!
# TempTerminator: the two-pass clean-up of the temporary directory

The repository holds three variants of one program.  Two of them keep the four
counters `filesDeleted`, `filesSkipped`, `foldersDeleted`, `foldersSkipped`:

* the variant with the `TEMP`-unset guard (`if (tempPath.empty())` followed by
  `if (!fs::exists(tempPath))`, lines 93-103 of its file), with `getEnvVar`,
  `logWrite` and the tests `if (removed)` / `if (removedCount > 0)`; banner
  `=== TempTerminator ===`.  The specification refers to it as
  `TempTerminatorR1.cpp`, and it is embedded in the namespace `R1`.  It is the
  213-line source file, stored as `src/TempTerminatorBETA2.cpp`;
* the variant with `timestamp()` (lines 9-18 of its file, `char buf[20]`) and
  both passes at lines 51-81; banner `=== TempTerminatorBETAV2 ===`.  The
  specification refers to it as `TempTerminatorBETA2.cpp`, and it is embedded in
  the namespace `BETA2`.  It is the 114-line source file, stored as
  `src/TempTerminatorR1.cpp`.

Line numbers in the comments below are those of the file that holds the variant.

The filesystem is the environment of the program.  A directory entry carries the
outcome of every `std::filesystem` call the program can make on it, so that a
run is a pure function of the listing.  Library calls throw
`fs::filesystem_error` only.  Within one run the second enumeration yields the
surviving entries in the order of the first; a later run may find them in any
order and re-tests each of them.
-/

namespace TempTerminator

/-! ## The environment: directory entries and `std::filesystem` calls -/

/-- What `fs::status(p)` reports for a path, after following symbolic links. -/
inductive FileType where
  | regular
  | directory
  | other
  | notFound
  deriving DecidableEq, Repr

/-- What a directory entry itself is (not following a symbolic link). -/
inductive Kind where
  | regular
  | directory
  | symlink
  | other
  deriving DecidableEq, Repr

/-- Outcome of a library call: it returns a value or throws
`fs::filesystem_error` with the text `what`. -/
inductive Call (α : Type) where
  | returns (a : α)
  | raises (what : String)
  deriving DecidableEq, Repr

/-- What happens when the entry is handed to `fs::remove` / `fs::remove_all`:
the removal works, the path no longer exists at the time of the call (the entry
vanished after it was enumerated), or the call throws. -/
inductive Removal where
  | succeeds
  | absent
  | raises (what : String)
  deriving DecidableEq, Repr

/-- One immediate entry of the target directory as `fs::directory_iterator`
yields it, with the outcome of each call the program may make on its path. -/
structure Entry where
  /-- Value of `entry.path()`. -/
  path : String
  /-- What the entry itself is. -/
  kind : Kind
  /-- Outcome of `fs::status(entry.path())`, which follows symbolic links. -/
  status : Call FileType
  /-- Paths of all entries beneath this one (empty unless it is a directory). -/
  beneath : List String
  /-- Outcome of walking `fs::recursive_directory_iterator(entry)`:
  `some what` when the walk throws. -/
  scan : Option String
  /-- Outcome of the removal call on the path. -/
  removal : Removal
  deriving DecidableEq, Repr

namespace fs

/-- Model of `fs::is_regular_file(p)`: `is_regular_file(status(p))`; throws when
`status` does. -/
def is_regular_file (e : Entry) : Call Bool :=
  match e.status with
  | .returns t => .returns (decide (t = FileType.regular))
  | .raises what => .raises what

/-- Model of `fs::is_directory(p)`: `is_directory(status(p))`; throws when
`status` does. -/
def is_directory (e : Entry) : Call Bool :=
  match e.status with
  | .returns t => .returns (decide (t = FileType.directory))
  | .raises what => .raises what

/-- Model of `fs::remove(p)`: `true` when the file was removed, `false` when
`p` did not exist, throws on an error. -/
def remove (e : Entry) : Call Bool :=
  match e.removal with
  | .succeeds => .returns true
  | .absent => .returns false
  | .raises what => .raises what

/-- Model of `fs::remove_all(p)`: the number of files and directories removed,
`p` itself included; `0` when `p` did not exist; throws on an error. -/
def remove_all (e : Entry) : Call Nat :=
  match e.removal with
  | .succeeds => .returns (e.beneath.length + 1)
  | .absent => .returns 0
  | .raises what => .raises what

/-- Model of `std::distance(fs::recursive_directory_iterator(entry), {})`: the
number of entries beneath `entry`; throws when the walk does. -/
def recursive_count (e : Entry) : Call Nat :=
  match e.scan with
  | none => .returns e.beneath.length
  | some what => .raises what

end fs

/-- Whether the entry is still in the directory after a removal call on it: only
a call that throws leaves it there. -/
def Removal.leavesEntry : Removal → Bool
  | .succeeds => false
  | .absent => false
  | .raises _ => true

/-! ## Log lines and run state -/

/-- The messages the program writes (the argument of `logWrite`, or the text
after the timestamp). -/
inductive LogLine where
  | starting
  | tempUnset
  | targetMissing (tempPath : String)
  | deletedFile (path : String)
  | couldNotDeleteFile (path : String)
  | skippedFile (path : String) (what : String)
  | deletedFolder (path : String) (items : Nat)
  | couldNotDeleteFolder (path : String)
  | skippedFolder (path : String) (what : String)
  deriving DecidableEq, Repr

/-- The text of a message, as the source builds it. -/
def LogLine.render : LogLine → String
  | .starting => "=== Starting Temp Termination ==="
  | .tempUnset => "Error: %TEMP% environment variable not found. Aborting."
  | .targetMissing p => "Error: Temp folder not found: " ++ p
  | .deletedFile p => "Deleted file: " ++ p
  | .couldNotDeleteFile p => "Could not delete file (unknown reason): " ++ p
  | .skippedFile p w => "Skipped file (cannot delete): " ++ p ++ " | Reason: " ++ w
  | .deletedFolder p n =>
      "Deleted folder: " ++ p ++ " (items removed: " ++ toString n ++ ")"
  | .couldNotDeleteFolder p => "Could not delete folder (unknown reason): " ++ p
  | .skippedFolder p w => "Skipped folder (cannot delete): " ++ p ++ " | Reason: " ++ w

/-- The four counters of `main`. -/
structure Counters where
  filesDeleted : Nat
  filesSkipped : Nat
  foldersDeleted : Nat
  foldersSkipped : Nat
  deriving DecidableEq, Repr

/-- State of a run: the counters, the messages written so far, the paths on
which a removal call was made, and (`kept`) the entries visited by the current
pass that are still in the directory after their turn. -/
structure Run where
  counters : Counters
  log : List LogLine
  removals : List String
  kept : List Entry
  deriving DecidableEq, Repr

/-- Counters at zero, as declared before the first pass. -/
def Counters.zero : Counters := ⟨0, 0, 0, 0⟩

/-- Write one message. -/
def Run.logWrite (s : Run) (l : LogLine) : Run := { s with log := s.log ++ [l] }

/-- Record that a removal call is made on `e`; the entry stays in the directory
exactly when the call leaves it there. -/
def Run.callRemoval (s : Run) (e : Entry) : Run :=
  { s with
    removals := s.removals ++ [e.path],
    kept := if e.removal.leavesEntry then s.kept ++ [e] else s.kept }

/-- The entry is passed over without a removal call: it stays. -/
def Run.keep (s : Run) (e : Entry) : Run := { s with kept := s.kept ++ [e] }

/-- The statement `++filesDeleted`. -/
def Run.incFilesDeleted (s : Run) : Run :=
  { s with counters := { s.counters with filesDeleted := s.counters.filesDeleted + 1 } }

/-- The statement `++filesSkipped`. -/
def Run.incFilesSkipped (s : Run) : Run :=
  { s with counters := { s.counters with filesSkipped := s.counters.filesSkipped + 1 } }

/-- The statement `++foldersDeleted`. -/
def Run.incFoldersDeleted (s : Run) : Run :=
  { s with counters := { s.counters with foldersDeleted := s.counters.foldersDeleted + 1 } }

/-- The statement `++foldersSkipped`. -/
def Run.incFoldersSkipped (s : Run) : Run :=
  { s with counters := { s.counters with foldersSkipped := s.counters.foldersSkipped + 1 } }

/-- State of the path named by `TEMP` when `main` looks at it. -/
inductive Target where
  | absent
  | nonDirectory
  | directory (entries : List Entry)
  deriving DecidableEq, Repr

/-- What `main` reads from its environment: the value of `std::getenv("TEMP")`
(`none` when the variable is unset) and what is at that path. -/
structure World where
  TEMP : Option String
  target : Target
  deriving DecidableEq, Repr

/-- Model of `fs::exists(p)`. -/
def fs.exists (t : Target) : Bool :=
  match t with
  | .absent => false
  | .nonDirectory => true
  | .directory _ => true

/-- Model of constructing and walking `fs::directory_iterator(p)`: the immediate
entries of a directory; throws `fs::filesystem_error` for a path that is not a
directory. -/
def fs.directory_iterator (t : Target) : Call (List Entry) :=
  match t with
  | .absent => .raises "directory_iterator: no such file or directory"
  | .nonDirectory => .raises "directory_iterator: not a directory"
  | .directory entries => .returns entries

/-- What a run of `main` leaves behind: its return value, the final state, the
counters printed under `--- Summary ---` (`none` when the summary is not
reached), and whether the outer `catch` was entered. -/
structure Outcome where
  exit : Nat
  run : Run
  summary : Option Counters
  crashed : Bool
  deriving DecidableEq, Repr

/-! ## The variant with the `TEMP`-unset guard (`R1`) -/

namespace R1

/-- The function `getEnvVar`: the value of the variable, or the empty string. -/
def getEnvVar (v : Option String) : String :=
  match v with
  | some s => s
  | none => ""


/-- Body of the first `for` loop of `main` (lines 114-133): the `try` block
encloses the type test and the removal; both `catch` clauses count a skip. -/
def fileStep (s : Run) (e : Entry) : Run :=
  match fs.is_regular_file e with
  | .raises what => ((s.keep e).logWrite (.skippedFile e.path what)).incFilesSkipped
  | .returns false => s.keep e
  | .returns true =>
    match fs.remove e with
    | .returns true => ((s.callRemoval e).logWrite (.deletedFile e.path)).incFilesDeleted
    | .returns false =>
        ((s.callRemoval e).logWrite (.couldNotDeleteFile e.path)).incFilesSkipped
    | .raises what =>
        ((s.callRemoval e).logWrite (.skippedFile e.path what)).incFilesSkipped

/-- Body of the second `for` loop of `main` (lines 140-160). -/
def folderStep (s : Run) (e : Entry) : Run :=
  match fs.is_directory e with
  | .raises what => ((s.keep e).logWrite (.skippedFolder e.path what)).incFoldersSkipped
  | .returns false => s.keep e
  | .returns true =>
    match fs.remove_all e with
    | .returns removedCount =>
      if removedCount > 0 then
        ((s.callRemoval e).logWrite (.deletedFolder e.path removedCount)).incFoldersDeleted
      else
        ((s.callRemoval e).logWrite (.couldNotDeleteFolder e.path)).incFoldersSkipped
    | .raises what =>
        ((s.callRemoval e).logWrite (.skippedFolder e.path what)).incFoldersSkipped

/-- First pass: one `fileStep` per entry of the listing, in enumeration order. -/
def filePass (listing : List Entry) (s : Run) : Run :=
  listing.foldl fileStep { s with kept := [] }

/-- Second pass: one `folderStep` per entry of the listing. -/
def folderPass (listing : List Entry) (s : Run) : Run :=
  listing.foldl folderStep { s with kept := [] }

/-- State when the header line has been written. -/
def started : Run := Run.logWrite ⟨Counters.zero, [], [], []⟩ .starting

/-- The function `main` (lines 59-212): resolve `TEMP`, validate, file pass,
folder pass over a fresh enumeration, summary.  An exception that leaves a pass
is caught by the outer handler, which returns 1. -/
def main (w : World) : Outcome :=
  let tempPath := getEnvVar w.TEMP
  if tempPath = "" then
    ⟨1, started.logWrite .tempUnset, none, false⟩
  else if !fs.exists w.target then
    ⟨1, started.logWrite (.targetMissing tempPath), none, false⟩
  else
    match fs.directory_iterator w.target with
    | .raises _ => ⟨1, started, none, true⟩
    | .returns listing =>
      let s1 := filePass listing started
      match fs.directory_iterator (.directory s1.kept) with
      | .raises _ => ⟨1, s1, none, true⟩
      | .returns listing2 =>
        let s2 := folderPass listing2 s1
        ⟨0, s2, some s2.counters, false⟩

/-- The directory as the second enumeration finds it. -/
def folderListing (listing : List Entry) : List Entry := (filePass listing started).kept

/-- Whether the file pass counts the entry: its type test reports a regular file
or throws. -/
def fileCounted (e : Entry) : Bool :=
  match fs.is_regular_file e with
  | .returns false => false
  | _ => true

/-- Whether the folder pass counts the entry: its type test reports a directory
or throws. -/
def folderCounted (e : Entry) : Bool :=
  match fs.is_directory e with
  | .returns false => false
  | _ => true

/-- Whether the file pass calls `fs::remove` on the entry. -/
def fileCalled (e : Entry) : Bool :=
  match fs.is_regular_file e with
  | .returns true => true
  | _ => false

/-- Whether the file pass reports the entry as deleted. -/
def fileDeleted (e : Entry) : Bool :=
  fileCalled e && decide (fs.remove e = .returns true)

/-- Whether the file pass reports the entry as skipped. -/
def fileSkipped (e : Entry) : Bool := fileCounted e && !fileDeleted e

/-- Whether the entry is still in the directory after the file pass. -/
def fileKept (e : Entry) : Bool := !fileCalled e || e.removal.leavesEntry

/-- The line the file pass writes for the entry, if any. -/
def fileLine (e : Entry) : Option LogLine :=
  match fs.is_regular_file e with
  | .raises what => some (.skippedFile e.path what)
  | .returns false => none
  | .returns true =>
    match fs.remove e with
    | .returns true => some (.deletedFile e.path)
    | .returns false => some (.couldNotDeleteFile e.path)
    | .raises what => some (.skippedFile e.path what)

/-- Whether the folder pass calls `fs::remove_all` on the entry. -/
def folderCalled (e : Entry) : Bool :=
  match fs.is_directory e with
  | .returns true => true
  | _ => false

/-- Whether the folder pass reports the entry as deleted. -/
def folderDeleted (e : Entry) : Bool :=
  folderCalled e && decide (e.removal = .succeeds)

/-- Whether the folder pass reports the entry as skipped. -/
def folderSkipped (e : Entry) : Bool := folderCounted e && !folderDeleted e

/-- Whether the entry is still in the directory after the folder pass. -/
def folderKept (e : Entry) : Bool := !folderCalled e || e.removal.leavesEntry

/-- The line the folder pass writes for the entry, if any. -/
def folderLine (e : Entry) : Option LogLine :=
  match fs.is_directory e with
  | .raises what => some (.skippedFolder e.path what)
  | .returns false => none
  | .returns true =>
    match fs.remove_all e with
    | .returns removedCount =>
      if removedCount > 0 then some (.deletedFolder e.path removedCount)
      else some (.couldNotDeleteFolder e.path)
    | .raises what => some (.skippedFolder e.path what)

end R1

/-! ## The variant with `timestamp()` (`BETA2`) -/

namespace BETA2

/-- Body of the first `for` loop of `main` (lines 51-63): the value returned by
`fs::remove` is dropped; the lines after the call run whenever it returns. -/
def fileStep (s : Run) (e : Entry) : Run :=
  match fs.is_regular_file e with
  | .raises what => ((s.keep e).logWrite (.skippedFile e.path what)).incFilesSkipped
  | .returns false => s.keep e
  | .returns true =>
    match fs.remove e with
    | .returns _ => ((s.callRemoval e).logWrite (.deletedFile e.path)).incFilesDeleted
    | .raises what =>
        ((s.callRemoval e).logWrite (.skippedFile e.path what)).incFilesSkipped

/-- Body of the second `for` loop of `main` (lines 68-81): `items` is counted by
walking the subtree before the removal; the value returned by `fs::remove_all`
is dropped. -/
def folderStep (s : Run) (e : Entry) : Run :=
  match fs.is_directory e with
  | .raises what => ((s.keep e).logWrite (.skippedFolder e.path what)).incFoldersSkipped
  | .returns false => s.keep e
  | .returns true =>
    match fs.recursive_count e with
    | .raises what => ((s.keep e).logWrite (.skippedFolder e.path what)).incFoldersSkipped
    | .returns items =>
      match fs.remove_all e with
      | .returns _ =>
          ((s.callRemoval e).logWrite (.deletedFolder e.path items)).incFoldersDeleted
      | .raises what =>
          ((s.callRemoval e).logWrite (.skippedFolder e.path what)).incFoldersSkipped

/-- First pass of this variant. -/
def filePass (listing : List Entry) (s : Run) : Run :=
  listing.foldl fileStep { s with kept := [] }

/-- Second pass of this variant. -/
def folderPass (listing : List Entry) (s : Run) : Run :=
  listing.foldl folderStep { s with kept := [] }

/-- Counters at zero and an empty log, as before the first pass. -/
def fresh : Run := ⟨Counters.zero, [], [], []⟩

/-- The fields of `std::tm` that the format reads: `tm_year` counts from 1900,
`tm_mon` from 0. -/
structure Tm where
  tm_sec : Nat
  tm_min : Nat
  tm_hour : Nat
  tm_mday : Nat
  tm_mon : Nat
  tm_year : Nat
  deriving DecidableEq, Repr

/-- A value below 100 as two decimal digits (`%m`, `%d`, `%H`, `%M`, `%S`). -/
def twoDigits (n : Nat) : List Char :=
  [Nat.digitChar (n / 10 % 10), Nat.digitChar (n % 10)]

/-- The characters `strftime` produces for a format, for the conversions the
source uses: `%Y` is the year as a decimal number, the others are two digits;
any other character is copied. -/
def expand : List Char → Tm → List Char
  | '%' :: 'Y' :: rest, t => Nat.toDigits 10 (t.tm_year + 1900) ++ expand rest t
  | '%' :: 'm' :: rest, t => twoDigits (t.tm_mon + 1) ++ expand rest t
  | '%' :: 'd' :: rest, t => twoDigits t.tm_mday ++ expand rest t
  | '%' :: 'H' :: rest, t => twoDigits t.tm_hour ++ expand rest t
  | '%' :: 'M' :: rest, t => twoDigits t.tm_min ++ expand rest t
  | '%' :: 'S' :: rest, t => twoDigits t.tm_sec ++ expand rest t
  | c :: rest, t => c :: expand rest t
  | [], _ => []

/-- Model of `std::strftime(buf, maxsize, format, &tm)`: when the text and its
terminating null fit in `maxsize` bytes, the number of characters written and
the text; otherwise 0, and the contents of `buf` are indeterminate (`none`). -/
def strftime (maxsize : Nat) (format : String) (t : Tm) : Nat × Option (List Char) :=
  if (expand format.toList t).length + 1 ≤ maxsize then
    ((expand format.toList t).length, some (expand format.toList t))
  else (0, none)

/-- The function `timestamp` (lines 10-18), with the broken-down local time as
argument: `char buf[20]`, `strftime(buf, sizeof(buf), "[%Y-%m-%d %H:%M:%S]")`,
`return std::string(buf)`; `none` when `buf` is indeterminate. -/
def timestamp (tm_now : Tm) : Option String :=
  (strftime 20 "[%Y-%m-%d %H:%M:%S]" tm_now).2.map String.mk

end BETA2

/-- Number of entries of a listing that are regular files. -/
def regularFileEntries (l : List Entry) : Nat :=
  l.countP (fun e => decide (e.kind = Kind.regular))

/-- Number of entries of a listing that are directories. -/
def directoryEntries (l : List Entry) : Nat :=
  l.countP (fun e => decide (e.kind = Kind.directory))

/-- The type test reports a regular file and the removal works. -/
def Entry.removableFile (e : Entry) : Bool :=
  decide (e.status = .returns .regular) && decide (e.removal = .succeeds)

/-- The type test reports a directory and the removal works. -/
def Entry.removableFolder (e : Entry) : Bool :=
  decide (e.status = .returns .directory) && decide (e.removal = .succeeds)

/-- The entry is a regular file or a directory, its type test reports what it
is, and its removal works. -/
def Entry.removablePlain (e : Entry) : Prop :=
  ((e.kind = .regular ∧ e.status = .returns .regular)
      ∨ (e.kind = .directory ∧ e.status = .returns .directory))
    ∧ e.removal = .succeeds

instance (e : Entry) : Decidable e.removablePlain := by
  unfold Entry.removablePlain
  exact inferInstance

/-- The same entry when its removal works. -/
def Entry.withoutFailure (e : Entry) : Entry := { e with removal := .succeeds }

/-- A world in which `TEMP` names an existing directory with the given listing. -/
def dirWorld (temp : String) (listing : List Entry) : World :=
  ⟨some temp, .directory listing⟩

/-! ## Sample inputs -/

/-- The file `a.txt` of the end-to-end scenario. -/
def aTxt : Entry := ⟨"/tmp/example/a.txt", .regular, .returns .regular, [], none, .succeeds⟩

/-- The file `b.txt` of the end-to-end scenario. -/
def bTxt : Entry := ⟨"/tmp/example/b.txt", .regular, .returns .regular, [], none, .succeeds⟩

/-- The directory `sub/` of the end-to-end scenario, holding only `c.txt`. -/
def subDir : Entry :=
  ⟨"/tmp/example/sub", .directory, .returns .directory, ["/tmp/example/sub/c.txt"], none,
    .succeeds⟩

/-- The end-to-end scenario: `/tmp/example` holds `a.txt`, `b.txt` and `sub/`. -/
def exampleWorld : World := ⟨some "/tmp/example", .directory [aTxt, bTxt, subDir]⟩

/-- A regular file that is held open by another process: `fs::remove` throws. -/
def lockedTxt : Entry :=
  ⟨"/tmp/example/locked.txt", .regular, .returns .regular, [],
    none, .raises "remove: permission denied"⟩

/-- A world in which `TEMP` names an existing regular file. -/
def fileWorld : World := ⟨some "/tmp/example", .nonDirectory⟩

/-- A world in which `TEMP` names a path that does not exist. -/
def missingWorld : World := ⟨some "/tmp/example", .absent⟩

/-- A regular file that is deleted by its owner after the type test: the path no
longer exists when `fs::remove` is called. -/
def vanishedTxt : Entry :=
  ⟨"/tmp/example/gone.txt", .regular, .returns .regular, [], none, .absent⟩

/-- A directory that is deleted by its owner after the walk that counts its
items: the path no longer exists when `fs::remove_all` is called. -/
def vanishedDir : Entry :=
  ⟨"/tmp/example/gone", .directory, .returns .directory, [], none, .absent⟩

/-- The local time 2024-01-01 12:00:00 as a `std::tm`. -/
def newYearNoon : BETA2.Tm := ⟨0, 0, 12, 1, 0, 124⟩

/-- A symbolic link whose target is a regular file: `status` follows the link,
and `fs::remove` removes the link. -/
def linkToFile : Entry :=
  ⟨"/tmp/example/link", .symlink, .returns .regular, [], none, .succeeds⟩

/-- A symbolic link that cannot be resolved (it points to itself): `status`
throws on it, and nothing calls a removal on it. -/
def loopLink : Entry :=
  ⟨"/tmp/example/loop", .symlink, .raises "status: too many levels of symbolic links",
    [], none, .succeeds⟩

/-- A directory holding only `loopLink`. -/
def loopWorld : World := ⟨some "/tmp/example", .directory [loopLink]⟩

/-! ## Lemmas on the two passes -/

namespace R1

theorem fileStep_counters (s : Run) (e : Entry) :
    (fileStep s e).counters.filesDeleted + (fileStep s e).counters.filesSkipped
        = s.counters.filesDeleted + s.counters.filesSkipped
          + (if fileCounted e then 1 else 0)
      ∧ (fileStep s e).counters.foldersDeleted = s.counters.foldersDeleted
      ∧ (fileStep s e).counters.foldersSkipped = s.counters.foldersSkipped := by
  unfold fileStep fileCounted
  cases h1 : fs.is_regular_file e with
  | raises w => simp [Run.keep, Run.logWrite, Run.incFilesSkipped]; omega
  | returns b =>
    cases b with
    | false => simp [Run.keep]
    | true =>
      cases h2 : fs.remove e with
      | raises w => simp [Run.callRemoval, Run.logWrite, Run.incFilesSkipped]; omega
      | returns r =>
        cases r <;> simp [Run.callRemoval, Run.logWrite, Run.incFilesSkipped,
          Run.incFilesDeleted] <;> omega

theorem folderStep_counters (s : Run) (e : Entry) :
    (folderStep s e).counters.foldersDeleted + (folderStep s e).counters.foldersSkipped
        = s.counters.foldersDeleted + s.counters.foldersSkipped
          + (if folderCounted e then 1 else 0)
      ∧ (folderStep s e).counters.filesDeleted = s.counters.filesDeleted
      ∧ (folderStep s e).counters.filesSkipped = s.counters.filesSkipped := by
  unfold folderStep folderCounted
  cases h1 : fs.is_directory e with
  | raises w => simp [Run.keep, Run.logWrite, Run.incFoldersSkipped]; omega
  | returns b =>
    cases b with
    | false => simp [Run.keep]
    | true =>
      cases h2 : fs.remove_all e with
      | raises w => simp [Run.callRemoval, Run.logWrite, Run.incFoldersSkipped]; omega
      | returns r =>
        by_cases hr : r > 0 <;> simp [hr, Run.callRemoval, Run.logWrite,
          Run.incFoldersSkipped, Run.incFoldersDeleted] <;> omega

theorem foldl_fileStep_counters (l : List Entry) (s : Run) :
    (l.foldl fileStep s).counters.filesDeleted + (l.foldl fileStep s).counters.filesSkipped
        = s.counters.filesDeleted + s.counters.filesSkipped + l.countP fileCounted
      ∧ (l.foldl fileStep s).counters.foldersDeleted = s.counters.foldersDeleted
      ∧ (l.foldl fileStep s).counters.foldersSkipped = s.counters.foldersSkipped := by
  induction l generalizing s with
  | nil => simp
  | cons e l ih =>
    obtain ⟨h1, h2, h3⟩ := fileStep_counters s e
    obtain ⟨i1, i2, i3⟩ := ih (fileStep s e)
    simp only [List.foldl_cons, List.countP_cons]
    refine ⟨?_, by rw [i2, h2], by rw [i3, h3]⟩
    rw [i1, h1]; omega

theorem foldl_folderStep_counters (l : List Entry) (s : Run) :
    (l.foldl folderStep s).counters.foldersDeleted
        + (l.foldl folderStep s).counters.foldersSkipped
        = s.counters.foldersDeleted + s.counters.foldersSkipped + l.countP folderCounted
      ∧ (l.foldl folderStep s).counters.filesDeleted = s.counters.filesDeleted
      ∧ (l.foldl folderStep s).counters.filesSkipped = s.counters.filesSkipped := by
  induction l generalizing s with
  | nil => simp
  | cons e l ih =>
    obtain ⟨h1, h2, h3⟩ := folderStep_counters s e
    obtain ⟨i1, i2, i3⟩ := ih (folderStep s e)
    simp only [List.foldl_cons, List.countP_cons]
    refine ⟨?_, by rw [i2, h2], by rw [i3, h3]⟩
    rw [i1, h1]; omega

/-- One step of the file pass, field by field. -/
theorem fileStep_eq (s : Run) (e : Entry) :
    fileStep s e =
      ⟨⟨s.counters.filesDeleted + (if fileDeleted e then 1 else 0),
        s.counters.filesSkipped + (if fileSkipped e then 1 else 0),
        s.counters.foldersDeleted, s.counters.foldersSkipped⟩,
       s.log ++ (fileLine e).toList,
       s.removals ++ (if fileCalled e then [e.path] else []),
       s.kept ++ (if fileKept e then [e] else [])⟩ := by
  cases hs : e.status with
  | raises w =>
    simp [fileStep, fileSkipped, fileDeleted, fileCounted, fileKept, fileLine, fileCalled,
      fs.is_regular_file, hs, Run.keep, Run.logWrite, Run.incFilesSkipped]
  | returns t =>
    cases t <;> cases hr : e.removal <;>
      simp [fileStep, fileSkipped, fileDeleted, fileCounted, fileKept, fileLine, fileCalled,
        fs.is_regular_file, hs, fs.remove, hr, Run.keep, Run.callRemoval, Run.logWrite,
        Run.incFilesSkipped, Run.incFilesDeleted, Removal.leavesEntry]

/-- One step of the folder pass, field by field. -/
theorem folderStep_eq (s : Run) (e : Entry) :
    folderStep s e =
      ⟨⟨s.counters.filesDeleted, s.counters.filesSkipped,
        s.counters.foldersDeleted + (if folderDeleted e then 1 else 0),
        s.counters.foldersSkipped + (if folderSkipped e then 1 else 0)⟩,
       s.log ++ (folderLine e).toList,
       s.removals ++ (if folderCalled e then [e.path] else []),
       s.kept ++ (if folderKept e then [e] else [])⟩ := by
  cases hs : e.status with
  | raises w =>
    simp [folderStep, folderSkipped, folderDeleted, folderCounted, folderKept, folderLine,
      folderCalled, fs.is_directory, hs, Run.keep, Run.logWrite, Run.incFoldersSkipped]
  | returns t =>
    cases t <;> cases hr : e.removal <;>
      simp [folderStep, folderSkipped, folderDeleted, folderCounted, folderKept, folderLine,
        folderCalled, fs.is_directory, hs, fs.remove_all, hr, Run.keep, Run.callRemoval,
        Run.logWrite, Run.incFoldersSkipped, Run.incFoldersDeleted, Removal.leavesEntry]

/-- The file pass in closed form. -/
theorem foldl_fileStep_eq (l : List Entry) (s : Run) :
    l.foldl fileStep s =
      ⟨⟨s.counters.filesDeleted + l.countP fileDeleted,
        s.counters.filesSkipped + l.countP fileSkipped,
        s.counters.foldersDeleted, s.counters.foldersSkipped⟩,
       s.log ++ l.filterMap fileLine,
       s.removals ++ (l.filter fileCalled).map Entry.path,
       s.kept ++ l.filter fileKept⟩ := by
  induction l generalizing s with
  | nil => simp
  | cons e l ih =>
    rw [List.foldl_cons, ih, fileStep_eq]
    simp only [List.countP_cons, List.filterMap_cons, List.filter_cons]
    cases hd : fileDeleted e <;> cases hs : fileSkipped e <;> cases hc : fileCalled e <;>
      cases hk : fileKept e <;> cases hl : fileLine e <;>
      simp <;> omega

/-- The folder pass in closed form. -/
theorem foldl_folderStep_eq (l : List Entry) (s : Run) :
    l.foldl folderStep s =
      ⟨⟨s.counters.filesDeleted, s.counters.filesSkipped,
        s.counters.foldersDeleted + l.countP folderDeleted,
        s.counters.foldersSkipped + l.countP folderSkipped⟩,
       s.log ++ l.filterMap folderLine,
       s.removals ++ (l.filter folderCalled).map Entry.path,
       s.kept ++ l.filter folderKept⟩ := by
  induction l generalizing s with
  | nil => simp
  | cons e l ih =>
    rw [List.foldl_cons, ih, folderStep_eq]
    simp only [List.countP_cons, List.filterMap_cons, List.filter_cons]
    cases hd : folderDeleted e <;> cases hs : folderSkipped e <;>
      cases hc : folderCalled e <;> cases hk : folderKept e <;> cases hl : folderLine e <;>
      simp <;> omega

theorem fileCalled_iff (e : Entry) : fileCalled e = true ↔ e.status = .returns .regular := by
  cases hs : e.status with
  | raises w => simp [fileCalled, fs.is_regular_file, hs]
  | returns t => cases t <;> simp [fileCalled, fs.is_regular_file, hs]

theorem folderCalled_iff (e : Entry) :
    folderCalled e = true ↔ e.status = .returns .directory := by
  cases hs : e.status with
  | raises w => simp [folderCalled, fs.is_directory, hs]
  | returns t => cases t <;> simp [folderCalled, fs.is_directory, hs]

theorem fileDeleted_eq (e : Entry) : fileDeleted e = e.removableFile := by
  cases hs : e.status with
  | raises w => simp [fileDeleted, fileCalled, fs.is_regular_file, hs, Entry.removableFile]
  | returns t =>
    cases t <;> cases hr : e.removal <;>
      simp [fileDeleted, fileCalled, fs.is_regular_file, hs, Entry.removableFile, fs.remove, hr]

theorem folderDeleted_eq (e : Entry) : folderDeleted e = e.removableFolder := by
  cases hs : e.status with
  | raises w => simp [folderDeleted, folderCalled, fs.is_directory, hs, Entry.removableFolder]
  | returns t =>
    cases t <;> cases hr : e.removal <;>
      simp [folderDeleted, folderCalled, fs.is_directory, hs, Entry.removableFolder, hr]

/-- The state after both passes over a listing, in closed form. -/
theorem passes_eq (l : List Entry) :
    folderPass (filePass l started).kept (filePass l started) =
      ⟨⟨l.countP fileDeleted, l.countP fileSkipped,
        (l.filter fileKept).countP folderDeleted,
        (l.filter fileKept).countP folderSkipped⟩,
       [LogLine.starting] ++ l.filterMap fileLine ++ (l.filter fileKept).filterMap folderLine,
       (l.filter fileCalled).map Entry.path
         ++ ((l.filter fileKept).filter folderCalled).map Entry.path,
       (l.filter fileKept).filter folderKept⟩ := by
  simp [folderPass, filePass, foldl_folderStep_eq, foldl_fileStep_eq, started,
    Run.logWrite, Counters.zero]

/-- The run of `main` on an existing directory named by a non-empty `TEMP`. -/
theorem main_directory (w : World) (l : List Entry) (hT : getEnvVar w.TEMP ≠ "")
    (hd : w.target = .directory l) :
    main w = ⟨0, folderPass (filePass l started).kept (filePass l started),
      some (folderPass (filePass l started).kept (filePass l started)).counters, false⟩ := by
  simp [main, hT, hd, fs.exists, fs.directory_iterator]

/-- The summary is reached only on an existing directory named by a non-empty
`TEMP`, and then `main` returns 0. -/
theorem main_summary_some (w : World) (c : Counters) (h : (main w).summary = some c) :
    getEnvVar w.TEMP ≠ "" ∧ ∃ l, w.target = .directory l := by
  unfold main at h
  by_cases hT : getEnvVar w.TEMP = ""
  · simp [hT] at h
  · refine ⟨hT, ?_⟩
    cases ht : w.target with
    | absent => simp [hT, ht, fs.exists] at h
    | nonDirectory => simp [hT, ht, fs.exists, fs.directory_iterator] at h
    | directory l => exact ⟨l, rfl⟩

end R1

/-! ## Claims -/

/-- C1 (as stated, refuted): on a directory whose only entry is an unresolvable
symbolic link, the type test throws in both passes; the summary is
`filesSkipped = 1`, `foldersSkipped = 1`, although the file pass enumerated no
regular file and the folder pass no directory. -/
theorem C1_counterexample :
    (R1.main loopWorld).summary = some ⟨0, 1, 0, 1⟩
      ∧ regularFileEntries [loopLink] = 0
      ∧ directoryEntries (R1.folderListing [loopLink]) = 0 := by
  refine ⟨?_, ?_, ?_⟩ <;> rfl

/-- C1 (amended): when the run reaches the summary, `filesDeleted + filesSkipped`
is the number of entries the file pass enumerated whose type test reported a
regular file or threw, and `foldersDeleted + foldersSkipped` is the number of
entries the folder pass enumerated whose type test reported a directory or
threw. -/
theorem C1_counter_consistency (w : World) (c : Counters)
    (h : (R1.main w).summary = some c) :
    ∃ listing, w.target = .directory listing
      ∧ c.filesDeleted + c.filesSkipped = listing.countP R1.fileCounted
      ∧ c.foldersDeleted + c.foldersSkipped
          = (R1.folderListing listing).countP R1.folderCounted := by
  obtain ⟨hT, l, hd⟩ := R1.main_summary_some w c h
  refine ⟨l, hd, ?_⟩
  rw [R1.main_directory w l hT hd] at h
  simp only [Option.some.injEq] at h
  subst h
  obtain ⟨f1, f2, f3⟩ := R1.foldl_fileStep_counters l { R1.started with kept := [] }
  obtain ⟨g1, g2, g3⟩ := R1.foldl_folderStep_counters (R1.filePass l R1.started).kept
    { R1.filePass l R1.started with kept := [] }
  simp only [R1.folderPass, R1.folderListing]
  simp only [R1.filePass] at g1 g2 g3 ⊢
  refine ⟨?_, ?_⟩
  · rw [g2, g3, f1]; simp [R1.started, Run.logWrite, Counters.zero]
  · rw [g1, f2, f3]; simp [R1.started, Run.logWrite, Counters.zero]

/-- C1 (amended), applied to the end-to-end scenario. -/
theorem C1_counter_consistency_witness :
    (R1.main exampleWorld).summary = some ⟨2, 0, 1, 0⟩
      ∧ ∃ listing, exampleWorld.target = .directory listing
        ∧ 2 + 0 = listing.countP R1.fileCounted
        ∧ 1 + 0 = (R1.folderListing listing).countP R1.folderCounted :=
  ⟨rfl, C1_counter_consistency exampleWorld ⟨2, 0, 1, 0⟩ rfl⟩


namespace R1

theorem fileSkipped_regular (e : Entry) (hs : e.status = .returns .regular) :
    fileSkipped e = !decide (e.removal = .succeeds) := by
  cases hr : e.removal <;>
    simp [fileSkipped, fileCounted, fileDeleted, fileCalled, fs.is_regular_file, hs,
      fs.remove, hr]

theorem fileSkipped_directory (e : Entry) (hs : e.status = .returns .directory) :
    fileSkipped e = false := by
  simp [fileSkipped, fileCounted, fileDeleted, fileCalled, fs.is_regular_file, hs]

theorem folderSkipped_directory (e : Entry) (hs : e.status = .returns .directory) :
    folderSkipped e = !decide (e.removal = .succeeds) := by
  cases hr : e.removal <;>
    simp [folderSkipped, folderCounted, folderDeleted, folderCalled, fs.is_directory, hs, hr]

theorem folderSkipped_regular (e : Entry) (hs : e.status = .returns .regular) :
    folderSkipped e = false := by
  simp [folderSkipped, folderCounted, folderDeleted, folderCalled, fs.is_directory, hs]

theorem fileKept_regular (e : Entry) (hs : e.status = .returns .regular) :
    fileKept e = e.removal.leavesEntry := by
  simp [fileKept, fileCalled, fs.is_regular_file, hs]

theorem fileKept_of_not_regular (e : Entry) (hs : e.status ≠ .returns .regular) :
    fileKept e = true := by
  have : fileCalled e = false := by
    cases h : fileCalled e with
    | false => rfl
    | true => exact absurd ((fileCalled_iff e).1 h) hs
  simp [fileKept, this]

theorem folderKept_directory (e : Entry) (hs : e.status = .returns .directory) :
    folderKept e = e.removal.leavesEntry := by
  simp [folderKept, folderCalled, fs.is_directory, hs]

theorem fileLine_removable (e : Entry) (h : e.removableFile = true) :
    fileLine e = some (.deletedFile e.path) := by
  simp only [Entry.removableFile, Bool.and_eq_true, decide_eq_true_eq] at h
  simp [fileLine, fs.is_regular_file, fs.remove, h.1, h.2]

theorem folderLine_removable (e : Entry) (h : e.removableFolder = true) :
    folderLine e = some (.deletedFolder e.path (e.beneath.length + 1)) := by
  simp only [Entry.removableFolder, Bool.and_eq_true, decide_eq_true_eq] at h
  simp [folderLine, fs.is_directory, fs.remove_all, h.1, h.2]

end R1

theorem Entry.removableFile_iff (e : Entry) :
    e.removableFile = true ↔ e.status = .returns .regular ∧ e.removal = .succeeds := by
  simp [Entry.removableFile]

theorem Entry.removableFolder_iff (e : Entry) :
    e.removableFolder = true ↔ e.status = .returns .directory ∧ e.removal = .succeeds := by
  simp [Entry.removableFolder]

theorem mem_of_mem_others {α : Type} {pre post : List α} {a e : α} (h : e ∈ pre ++ post) :
    e ∈ pre ++ a :: post := by
  simp only [List.mem_append, List.mem_cons] at h ⊢
  tauto

/-- C2: isolation.  Let the listing be `pre ++ A :: post`, with a removal of `A`
that throws or reports that nothing was removed.  The run returns 0 and reaches
the summary; a removal call is made on every other entry that tests as a regular
file or as a directory; every other removable entry is reported deleted and is
gone from the directory; `filesDeleted` and `foldersDeleted` count exactly the
other removable entries; and for a file `A` (a directory `A`) `filesSkipped`
(`foldersSkipped`) is one higher than in the run where the removal of `A` works,
the other skip counter being the same. -/
theorem C2_isolation (temp : String) (pre post : List Entry) (A : Entry)
    (hT : temp ≠ "") (hfail : A.removal ≠ .succeeds) :
    (R1.main (dirWorld temp (pre ++ A :: post))).exit = 0
      ∧ (R1.main (dirWorld temp (pre ++ A :: post))).summary
          = some (R1.main (dirWorld temp (pre ++ A :: post))).run.counters
      ∧ (∀ e ∈ pre ++ post,
          (e.status = .returns .regular ∨ e.status = .returns .directory) →
            e.path ∈ (R1.main (dirWorld temp (pre ++ A :: post))).run.removals)
      ∧ (∀ e ∈ pre ++ post, e.removableFile = true →
          LogLine.deletedFile e.path ∈ (R1.main (dirWorld temp (pre ++ A :: post))).run.log
            ∧ e ∉ (R1.main (dirWorld temp (pre ++ A :: post))).run.kept)
      ∧ (∀ e ∈ pre ++ post, e.removableFolder = true →
          LogLine.deletedFolder e.path (e.beneath.length + 1)
              ∈ (R1.main (dirWorld temp (pre ++ A :: post))).run.log
            ∧ e ∉ (R1.main (dirWorld temp (pre ++ A :: post))).run.kept)
      ∧ (R1.main (dirWorld temp (pre ++ A :: post))).run.counters.filesDeleted
          = (pre ++ post).countP Entry.removableFile
      ∧ (R1.main (dirWorld temp (pre ++ A :: post))).run.counters.foldersDeleted
          = (pre ++ post).countP Entry.removableFolder
      ∧ (A.status = .returns .regular →
          (R1.main (dirWorld temp (pre ++ A :: post))).run.counters.filesSkipped
            = (R1.main (dirWorld temp (pre ++ A.withoutFailure :: post))).run.counters.filesSkipped
              + 1
          ∧ (R1.main (dirWorld temp (pre ++ A :: post))).run.counters.foldersSkipped
            = (R1.main (dirWorld temp (pre ++ A.withoutFailure :: post))).run.counters.foldersSkipped)
      ∧ (A.status = .returns .directory →
          (R1.main (dirWorld temp (pre ++ A :: post))).run.counters.foldersSkipped
            = (R1.main (dirWorld temp (pre ++ A.withoutFailure :: post))).run.counters.foldersSkipped
              + 1
          ∧ (R1.main (dirWorld temp (pre ++ A :: post))).run.counters.filesSkipped
            = (R1.main (dirWorld temp (pre ++ A.withoutFailure :: post))).run.counters.filesSkipped) := by
  have hm : ∀ l, R1.main (dirWorld temp l) = _ := fun l =>
    R1.main_directory (dirWorld temp l) l (by simpa [dirWorld, R1.getEnvVar] using hT) rfl
  have hfd : R1.fileDeleted = Entry.removableFile := funext R1.fileDeleted_eq
  have hgd : R1.folderDeleted = Entry.removableFolder := funext R1.folderDeleted_eq
  have hAf : A.removableFile = false := by simp [Entry.removableFile, hfail]
  have hAg : A.removableFolder = false := by simp [Entry.removableFolder, hfail]
  have hwr : A.withoutFailure.removal = .succeeds := rfl
  simp only [hm, R1.passes_eq]
  refine ⟨trivial, trivial, ?_, ?_, ?_, ?_, ?_, ?_, ?_⟩
  · intro e he hs
    have he' : e ∈ pre ++ A :: post := mem_of_mem_others he
    rw [List.mem_append]
    rcases hs with h | h
    · exact Or.inl (List.mem_map.2 ⟨e, List.mem_filter.2 ⟨he', (R1.fileCalled_iff e).2 h⟩, rfl⟩)
    · refine Or.inr (List.mem_map.2 ⟨e, List.mem_filter.2 ⟨List.mem_filter.2 ⟨he', ?_⟩,
        (R1.folderCalled_iff e).2 h⟩, rfl⟩)
      exact R1.fileKept_of_not_regular e (by simp [h])
  · intro e he hr
    have he' : e ∈ pre ++ A :: post := mem_of_mem_others he
    have h := (Entry.removableFile_iff e).1 hr
    refine ⟨?_, ?_⟩
    · refine List.mem_append.2 (Or.inl (List.mem_append.2 (Or.inr ?_)))
      exact List.mem_filterMap.2 ⟨e, he', R1.fileLine_removable e hr⟩
    · intro hk
      have := (List.mem_filter.1 (List.mem_filter.1 hk).1).2
      rw [R1.fileKept_regular e h.1, h.2] at this
      simp [Removal.leavesEntry] at this
  · intro e he hr
    have he' : e ∈ pre ++ A :: post := mem_of_mem_others he
    have h := (Entry.removableFolder_iff e).1 hr
    have hk1 : R1.fileKept e = true := R1.fileKept_of_not_regular e (by simp [h.1])
    refine ⟨?_, ?_⟩
    · refine List.mem_append.2 (Or.inr ?_)
      exact List.mem_filterMap.2 ⟨e, List.mem_filter.2 ⟨he', hk1⟩, R1.folderLine_removable e hr⟩
    · intro hk
      have := (List.mem_filter.1 hk).2
      rw [R1.folderKept_directory e h.1, h.2] at this
      simp [Removal.leavesEntry] at this
  · simp [hfd, List.countP_append, List.countP_cons, hAf]
  · rw [hgd, List.countP_filter]
    have : (fun e => Entry.removableFolder e && R1.fileKept e) = Entry.removableFolder := by
      funext e
      cases hr : e.removableFolder with
      | false => simp
      | true =>
        have h := (Entry.removableFolder_iff e).1 hr
        simp [R1.fileKept_of_not_regular e (by simp [h.1])]
    simp [this, List.countP_append, List.countP_cons, hAg]
  · intro hs
    have hs' : A.withoutFailure.status = .returns .regular := hs
    have h1 : R1.fileSkipped A = true := by simp [R1.fileSkipped_regular A hs, hfail]
    have h2 : R1.fileSkipped A.withoutFailure = false := by
      rw [R1.fileSkipped_regular _ hs', hwr]; rfl
    have h3 : R1.folderSkipped A = false := R1.folderSkipped_regular A hs
    have h4 : R1.fileKept A.withoutFailure = false := by
      rw [R1.fileKept_regular _ hs', hwr]; rfl
    refine ⟨?_, ?_⟩
    · simp [List.countP_append, List.countP_cons, h1, h2]; omega
    · simp only [List.filter_append, List.filter_cons, h4, List.countP_append]
      cases hk : R1.fileKept A <;> simp [List.countP_cons, h3]
  · intro hs
    have hs' : A.withoutFailure.status = .returns .directory := hs
    have h1 : R1.folderSkipped A = true := by simp [R1.folderSkipped_directory A hs, hfail]
    have h2 : R1.folderSkipped A.withoutFailure = false := by
      rw [R1.folderSkipped_directory _ hs', hwr]; rfl
    have h3 : R1.fileSkipped A = false := R1.fileSkipped_directory A hs
    have h3' : R1.fileSkipped A.withoutFailure = false := R1.fileSkipped_directory _ hs'
    have h4 : R1.fileKept A = true := R1.fileKept_of_not_regular A (by simp [hs])
    have h4' : R1.fileKept A.withoutFailure = true :=
      R1.fileKept_of_not_regular _ (by simp [hs'])
    refine ⟨?_, ?_⟩
    · simp [List.filter_append, List.filter_cons, h4, h4', List.countP_append,
        List.countP_cons, h1, h2]; omega
    · simp [List.countP_append, List.countP_cons, h3, h3']

/-- C2 at `a.txt`, a locked file, `b.txt`, `sub/`: the summary is
`{2, 1, 1, 0}`, against `{3, 0, 1, 0}` when the file is not locked. -/
theorem C2_isolation_witness :
    (R1.main (dirWorld "/tmp/example" ([aTxt] ++ lockedTxt :: [bTxt, subDir]))).summary
        = some ⟨2, 1, 1, 0⟩
      ∧ (R1.main (dirWorld "/tmp/example"
          ([aTxt] ++ lockedTxt.withoutFailure :: [bTxt, subDir]))).summary = some ⟨3, 0, 1, 0⟩
      ∧ (R1.main (dirWorld "/tmp/example"
          ([aTxt] ++ lockedTxt :: [bTxt, subDir]))).run.counters.filesSkipped
        = (R1.main (dirWorld "/tmp/example"
          ([aTxt] ++ lockedTxt.withoutFailure :: [bTxt, subDir]))).run.counters.filesSkipped + 1 :=
  ⟨rfl, rfl,
    ((C2_isolation "/tmp/example" [aTxt] [bTxt, subDir] lockedTxt (by decide)
      (by decide)).2.2.2.2.2.2.2.1 rfl).1⟩

/-- C3 (as stated, refuted): when `TEMP` names an existing regular file,
`fs::exists` holds, so validation does not fail and no "Temp folder not found"
line is written; the enumeration throws and the outer handler returns 1. -/
theorem C3_counterexample :
    fs.exists fileWorld.target = true
      ∧ (R1.main fileWorld).run.log = [LogLine.starting]
      ∧ LogLine.targetMissing "/tmp/example" ∉ (R1.main fileWorld).run.log
      ∧ (R1.main fileWorld).crashed = true
      ∧ (R1.main fileWorld).exit = 1 := by
  refine ⟨rfl, rfl, ?_, rfl, rfl⟩
  have h : (R1.main fileWorld).run.log = [LogLine.starting] := rfl
  rw [h]
  simp

/-- C3 (amended): for every non-empty target path that does not exist or is not
a directory, no removal call is made, the summary is not reached and `main`
returns 1.  When the path does not exist, validation fails with the
"Temp folder not found" line.  When the path exists but is not a directory,
validation passes, the enumeration throws and the outer handler ends the run. -/
theorem C3_validation (w : World) (hT : R1.getEnvVar w.TEMP ≠ "")
    (h : w.target = .absent ∨ w.target = .nonDirectory) :
    (R1.main w).exit = 1
      ∧ (R1.main w).run.removals = []
      ∧ (R1.main w).summary = none
      ∧ (w.target = .absent →
          (R1.main w).run.log
              = [LogLine.starting, LogLine.targetMissing (R1.getEnvVar w.TEMP)]
            ∧ (R1.main w).crashed = false)
      ∧ (w.target = .nonDirectory →
          (R1.main w).run.log = [LogLine.starting] ∧ (R1.main w).crashed = true) := by
  rcases h with h | h <;>
    simp [R1.main, hT, h, fs.exists, fs.directory_iterator, R1.started, Run.logWrite]

/-- C3 (amended) at a path that does not exist. -/
theorem C3_validation_witness :
    (R1.main missingWorld).exit = 1
      ∧ (R1.main missingWorld).run.removals = []
      ∧ (R1.main missingWorld).run.log
          = [LogLine.starting, LogLine.targetMissing "/tmp/example"] :=
  have h := C3_validation missingWorld (by decide) (Or.inl rfl)
  ⟨h.1, h.2.1, (h.2.2.2.1 rfl).1⟩

/-- C6: `main` returns 0 exactly when `TEMP` is set to a non-empty path, that
path exists and both passes run to the summary, whatever the listing and however
many items are skipped.  It returns 1, without any removal call, when `TEMP` is
unset, when `TEMP` is empty and when the target is missing; it returns 1 through
the outer handler when an error leaves the passes (the target is not a
directory); it returns nothing but 0 or 1, and 1 exactly when the summary is not
reached. -/
theorem C6_exit_status (w : World) :
    ((R1.main w).exit = 0 ↔
        (∃ p, w.TEMP = some p ∧ p ≠ "") ∧ fs.exists w.target = true
          ∧ (R1.main w).summary = some (R1.main w).run.counters)
      ∧ (w.TEMP = none →
          (R1.main w).exit = 1 ∧ (R1.main w).run.removals = []
            ∧ (R1.main w).run.log = [LogLine.starting, LogLine.tempUnset])
      ∧ (w.TEMP = some "" →
          (R1.main w).exit = 1 ∧ (R1.main w).run.removals = []
            ∧ (R1.main w).run.log = [LogLine.starting, LogLine.tempUnset])
      ∧ (∀ p, w.TEMP = some p → p ≠ "" → w.target = .absent →
          (R1.main w).exit = 1 ∧ (R1.main w).run.removals = []
            ∧ (R1.main w).run.log = [LogLine.starting, LogLine.targetMissing p])
      ∧ (∀ p, w.TEMP = some p → p ≠ "" → w.target = .nonDirectory →
          (R1.main w).exit = 1 ∧ (R1.main w).run.removals = []
            ∧ (R1.main w).crashed = true)
      ∧ (∀ p l, w.TEMP = some p → p ≠ "" → w.target = .directory l →
          (R1.main w).exit = 0 ∧ (R1.main w).crashed = false
            ∧ (R1.main w).summary
              = some ⟨l.countP R1.fileDeleted, l.countP R1.fileSkipped,
                  (l.filter R1.fileKept).countP R1.folderDeleted,
                  (l.filter R1.fileKept).countP R1.folderSkipped⟩)
      ∧ ((R1.main w).crashed = true → (R1.main w).exit = 1)
      ∧ ((R1.main w).exit = 0 ∨ (R1.main w).exit = 1)
      ∧ ((R1.main w).summary = none ↔ (R1.main w).exit = 1) := by
  refine ⟨?_, ?_, ?_, ?_, ?_, ?_, ?_⟩
  · cases hT : w.TEMP with
    | none => simp [R1.main, R1.getEnvVar, hT]
    | some p =>
      by_cases hp : p = ""
      · simp [R1.main, R1.getEnvVar, hT, hp]
      · cases ht : w.target <;>
          simp [R1.main, R1.getEnvVar, hT, hp, ht, fs.exists, fs.directory_iterator]
  · intro hT
    simp [R1.main, R1.getEnvVar, hT, R1.started, Run.logWrite]
  · intro hT
    simp [R1.main, R1.getEnvVar, hT, R1.started, Run.logWrite]
  · intro p hT hp ht
    simp [R1.main, R1.getEnvVar, hT, hp, ht, fs.exists, R1.started, Run.logWrite]
  · intro p hT hp ht
    simp [R1.main, R1.getEnvVar, hT, hp, ht, fs.exists, fs.directory_iterator, R1.started,
      Run.logWrite]
  · intro p l hT hp ht
    rw [R1.main_directory w l (by simpa [R1.getEnvVar, hT] using hp) ht, R1.passes_eq]
    exact ⟨rfl, rfl, rfl⟩
  · by_cases hT : R1.getEnvVar w.TEMP = ""
    · simp [R1.main, hT]
    · cases ht : w.target <;>
        simp [R1.main, hT, ht, fs.exists, fs.directory_iterator]

/-- C6 with `TEMP` unset over a directory holding `a.txt`: `main` returns 1 and
removes nothing; with `TEMP` set, on a listing with a skipped item, it returns
0. -/
theorem C6_exit_status_witness :
    (R1.main ⟨none, .directory [aTxt]⟩).exit = 1
      ∧ (R1.main ⟨none, .directory [aTxt]⟩).run.removals = []
      ∧ (R1.main (dirWorld "/tmp/example" [aTxt, lockedTxt])).exit = 0
      ∧ (R1.main (dirWorld "/tmp/example" [aTxt, lockedTxt])).summary = some ⟨1, 1, 0, 0⟩ :=
  have h := (C6_exit_status ⟨none, .directory [aTxt]⟩).2.1 rfl
  ⟨h.1, h.2.1,
    (C6_exit_status (dirWorld "/tmp/example" [aTxt, lockedTxt])).1.2
      ⟨⟨"/tmp/example", rfl, by decide⟩, rfl, rfl⟩, rfl⟩

/-- C5: full clean-up.  When every top-level entry is a regular file or a
directory, tests as what it is, and can be removed, then `main` returns 0, the
directory is empty after the run, a removal call was made on every entry, and
the summary is `filesDeleted` = number of regular files, `foldersDeleted` =
number of directories, `filesSkipped = foldersSkipped = 0`; so a listing without
directories gives `foldersDeleted = 0` and one without regular files gives
`filesDeleted = 0`. -/
theorem C5_full_cleanup (temp : String) (listing : List Entry) (hT : temp ≠ "")
    (h : ∀ e ∈ listing, e.removablePlain) :
    (R1.main (dirWorld temp listing)).exit = 0
      ∧ (R1.main (dirWorld temp listing)).run.kept = []
      ∧ (∀ e ∈ listing, e.path ∈ (R1.main (dirWorld temp listing)).run.removals)
      ∧ (R1.main (dirWorld temp listing)).summary
          = some ⟨regularFileEntries listing, 0, directoryEntries listing, 0⟩
      ∧ (directoryEntries listing = 0 →
          (R1.main (dirWorld temp listing)).summary
            = some ⟨regularFileEntries listing, 0, 0, 0⟩)
      ∧ (regularFileEntries listing = 0 →
          (R1.main (dirWorld temp listing)).summary
            = some ⟨0, 0, directoryEntries listing, 0⟩) := by
  have hm : R1.main (dirWorld temp listing) = _ :=
    R1.main_directory (dirWorld temp listing) listing
      (by simpa [dirWorld, R1.getEnvVar] using hT) rfl
  have hfd : ∀ e ∈ listing, (R1.fileDeleted e = true ↔ decide (e.kind = Kind.regular) = true) := by
    intro e he
    have := h e he
    simp only [Entry.removablePlain] at this
    rw [R1.fileDeleted_eq, Entry.removableFile_iff]
    rcases this with ⟨⟨hk, hs⟩ | ⟨hk, hs⟩, hr⟩ <;> simp [hk, hs, hr]
  have hfs : ∀ e ∈ listing, ¬ (R1.fileSkipped e = true) := by
    intro e he
    have := h e he
    simp only [Entry.removablePlain] at this
    rcases this with ⟨⟨hk, hs⟩ | ⟨hk, hs⟩, hr⟩
    · simp [R1.fileSkipped_regular e hs, hr]
    · simp [R1.fileSkipped_directory e hs]
  have hfk : ∀ e ∈ listing, R1.fileKept e = decide (e.kind = Kind.directory) := by
    intro e he
    have := h e he
    simp only [Entry.removablePlain] at this
    rcases this with ⟨⟨hk, hs⟩ | ⟨hk, hs⟩, hr⟩
    · simp [R1.fileKept_regular e hs, hr, hk, Removal.leavesEntry]
    · simp [R1.fileKept_of_not_regular e (by simp [hs]), hk]
  have hgd : ∀ e ∈ listing, e.kind = Kind.directory → R1.folderDeleted e = true := by
    intro e he hk
    have := h e he
    simp only [Entry.removablePlain] at this
    rw [R1.folderDeleted_eq, Entry.removableFolder_iff]
    rcases this with ⟨⟨hk', hs⟩ | ⟨hk', hs⟩, hr⟩
    · simp [hk] at hk'
    · exact ⟨hs, hr⟩
  have hgs : ∀ e ∈ listing, e.kind = Kind.directory → R1.folderSkipped e = false := by
    intro e he hk
    have := h e he
    simp only [Entry.removablePlain] at this
    rcases this with ⟨⟨hk', hs⟩ | ⟨hk', hs⟩, hr⟩
    · simp [hk] at hk'
    · simp [R1.folderSkipped_directory e hs, hr]
  have hgk : ∀ e ∈ listing, e.kind = Kind.directory → R1.folderKept e = false := by
    intro e he hk
    have := h e he
    simp only [Entry.removablePlain] at this
    rcases this with ⟨⟨hk', hs⟩ | ⟨hk', hs⟩, hr⟩
    · simp [hk] at hk'
    · simp [R1.folderKept_directory e hs, hr, Removal.leavesEntry]
  have hkept : listing.filter R1.fileKept
      = listing.filter (fun e => decide (e.kind = Kind.directory)) :=
    List.filter_congr hfk
  have hsum : (R1.main (dirWorld temp listing)).summary
      = some ⟨regularFileEntries listing, 0, directoryEntries listing, 0⟩ := by
    rw [hm, R1.passes_eq, hkept]
    simp only [Option.some.injEq, Counters.mk.injEq]
    refine ⟨List.countP_congr hfd, List.countP_eq_zero.2 hfs, ?_, ?_⟩
    · rw [List.countP_filter, directoryEntries]
      apply List.countP_congr
      intro e he
      by_cases hk : e.kind = Kind.directory
      · simp [hk, hgd e he hk]
      · simp [hk]
    · rw [List.countP_eq_zero]
      intro e he
      have he' := List.mem_filter.1 he
      simp [hgs e he'.1 (by simpa using he'.2)]
  refine ⟨by rw [hm], ?_, ?_, hsum, ?_, ?_⟩
  · rw [hm, R1.passes_eq, hkept]
    simp only [List.filter_eq_nil_iff]
    intro e he
    have he' := List.mem_filter.1 he
    simp [hgk e he'.1 (by simpa using he'.2)]
  · intro e he
    rw [hm, R1.passes_eq, hkept]
    simp only [List.mem_append, List.mem_map, List.mem_filter]
    have := h e he
    simp only [Entry.removablePlain] at this
    rcases this with ⟨⟨hk, hs⟩ | ⟨hk, hs⟩, hr⟩
    · exact Or.inl ⟨e, ⟨he, (R1.fileCalled_iff e).2 hs⟩, rfl⟩
    · exact Or.inr ⟨e, ⟨⟨he, by simp [hk]⟩, (R1.folderCalled_iff e).2 hs⟩, rfl⟩
  · intro h0; rw [hsum, h0]
  · intro h0; rw [hsum, h0]

/-- C5 on the end-to-end scenario: `a.txt`, `b.txt` and `sub/` holding `c.txt`
give the summary `{2, 0, 1, 0}` and an empty directory. -/
theorem C5_full_cleanup_witness :
    (R1.main exampleWorld).exit = 0
      ∧ (R1.main exampleWorld).run.kept = []
      ∧ (R1.main exampleWorld).summary = some ⟨2, 0, 1, 0⟩
      ∧ (R1.main exampleWorld).run.log
          = [LogLine.starting, LogLine.deletedFile "/tmp/example/a.txt",
              LogLine.deletedFile "/tmp/example/b.txt",
              LogLine.deletedFolder "/tmp/example/sub" 2] :=
  have h := C5_full_cleanup "/tmp/example" [aTxt, bTxt, subDir] (by decide) (by decide)
  ⟨h.1, h.2.1, h.2.2.2.1, rfl⟩


namespace R1

theorem fileStep_of_not_regular (e : Entry) (h : fs.is_regular_file e = .returns false) :
    fileDeleted e = false ∧ fileSkipped e = false ∧ fileCalled e = false
      ∧ fileLine e = none ∧ fileKept e = true := by
  simp [fileDeleted, fileSkipped, fileCounted, fileCalled, fileLine, fileKept, h]

theorem folderLine_deleted (e : Entry) (p : String) (n : Nat)
    (h : folderLine e = some (.deletedFolder p n)) :
    p = e.path ∧ fs.remove_all e = .returns n ∧ n = e.beneath.length + 1 := by
  cases hs : e.status with
  | raises w => simp [folderLine, fs.is_directory, hs] at h
  | returns t =>
    cases t <;> cases hr : e.removal <;>
      simp [folderLine, fs.is_directory, hs, fs.remove_all, hr] at h ⊢
    obtain ⟨h1, h2⟩ := h
    exact ⟨h1.symm, h2, h2.symm⟩

theorem fileLine_not_deletedFolder (e : Entry) (p : String) (n : Nat) :
    fileLine e ≠ some (.deletedFolder p n) := by
  cases hs : e.status with
  | raises w => simp [fileLine, fs.is_regular_file, hs]
  | returns t =>
    cases t <;> cases hr : e.removal <;>
      simp [fileLine, fs.is_regular_file, hs, fs.remove, hr]

/-- The log of `main` in the three cases where the passes do not run. -/
theorem main_log_no_passes (w : World) (h : ∀ l, w.target ≠ .directory l) :
    (main w).run.log = [LogLine.starting, LogLine.tempUnset]
      ∨ (main w).run.log = [LogLine.starting, LogLine.targetMissing (getEnvVar w.TEMP)]
      ∨ (main w).run.log = [LogLine.starting] := by
  by_cases hT : getEnvVar w.TEMP = ""
  · simp [main, hT, started, Run.logWrite]
  · cases ht : w.target with
    | absent => simp [main, hT, ht, fs.exists, started, Run.logWrite]
    | nonDirectory =>
      simp [main, hT, ht, fs.exists, fs.directory_iterator, started, Run.logWrite]
    | directory l => exact absurd ht (h l)

end R1

/-- C8 (as stated, refuted): the file pass over a symbolic link to a regular
file and an unresolvable symbolic link.  Neither entry is a regular file; the
type test follows the first link, so `fs::remove` is called on it and it is
reported deleted; the type test throws on the second, which is reported as a
skipped file. -/
theorem C8_counterexample :
    linkToFile.kind ≠ Kind.regular ∧ loopLink.kind ≠ Kind.regular
      ∧ (R1.filePass [linkToFile, loopLink] R1.started).removals = ["/tmp/example/link"]
      ∧ (R1.filePass [linkToFile, loopLink] R1.started).log
          = [LogLine.starting, LogLine.deletedFile "/tmp/example/link",
              LogLine.skippedFile "/tmp/example/loop"
                "status: too many levels of symbolic links"]
      ∧ (R1.filePass [linkToFile, loopLink] R1.started).counters = ⟨1, 1, 0, 0⟩ := by
  refine ⟨by decide, by decide, rfl, rfl, rfl⟩

/-- C8 (amended): an enumerated entry whose type test returns normally and
reports, after following symbolic links, something other than a regular file is
passed over by the file pass: the pass makes the same removal calls, writes the
same lines and ends with the same counters as on the listing without that entry,
and the entry is still in the directory for the folder pass. -/
theorem C8_file_pass_frame (pre post : List Entry) (e : Entry) (s : Run) (t : FileType)
    (hs : e.status = .returns t) (ht : t ≠ .regular) :
    (R1.filePass (pre ++ e :: post) s).removals = (R1.filePass (pre ++ post) s).removals
      ∧ (R1.filePass (pre ++ e :: post) s).log = (R1.filePass (pre ++ post) s).log
      ∧ (R1.filePass (pre ++ e :: post) s).counters = (R1.filePass (pre ++ post) s).counters
      ∧ e ∈ (R1.filePass (pre ++ e :: post) s).kept := by
  have h : fs.is_regular_file e = .returns false := by
    simp [fs.is_regular_file, hs, ht]
  obtain ⟨h1, h2, h3, h4, h5⟩ := R1.fileStep_of_not_regular e h
  simp only [R1.filePass, R1.foldl_fileStep_eq]
  simp [List.countP_append, List.countP_cons, List.filter_append, List.filter_cons,
    h1, h2, h3, h4, h5]

/-- C8 (amended) at `a.txt`, `sub/`, `b.txt`: the directory is passed over and
kept; the two files are removed. -/
theorem C8_file_pass_frame_witness :
    (R1.filePass ([aTxt] ++ subDir :: [bTxt]) R1.started).removals
        = (R1.filePass ([aTxt] ++ [bTxt]) R1.started).removals
      ∧ (R1.filePass ([aTxt] ++ subDir :: [bTxt]) R1.started).removals
        = ["/tmp/example/a.txt", "/tmp/example/b.txt"]
      ∧ subDir ∈ (R1.filePass ([aTxt] ++ subDir :: [bTxt]) R1.started).kept :=
  have h := C8_file_pass_frame [aTxt] [bTxt] subDir R1.started .directory rfl (by decide)
  ⟨h.1, rfl, h.2.2.2⟩

/-- C9 (as stated, refuted): in the end-to-end scenario `sub/` holds one entry,
`c.txt`, and the line written for it is
"Deleted folder: /tmp/example/sub (items removed: 2)": the number is the return
value of `fs::remove_all`, which counts the directory itself. -/
theorem C9_counterexample :
    subDir.beneath = ["/tmp/example/sub/c.txt"]
      ∧ (R1.main exampleWorld).run.log
          = [LogLine.starting, LogLine.deletedFile "/tmp/example/a.txt",
              LogLine.deletedFile "/tmp/example/b.txt",
              LogLine.deletedFolder "/tmp/example/sub" 2]
      ∧ (LogLine.deletedFolder "/tmp/example/sub" 2).render
          = "Deleted folder: /tmp/example/sub (items removed: 2)" := by
  refine ⟨rfl, rfl, rfl⟩

/-- C9 (amended): for every line "Deleted folder: p (items removed: n)" of a
run, `p` is the path of an entry of the listing, `n` is what `fs::remove_all`
returned for it, and `n` is the number of entries beneath it plus one, the
directory itself being counted. -/
theorem C9_items_removed (w : World) (p : String) (n : Nat)
    (h : LogLine.deletedFolder p n ∈ (R1.main w).run.log) :
    ∃ listing e, w.target = .directory listing ∧ e ∈ listing ∧ e.path = p
      ∧ fs.remove_all e = .returns n ∧ n = e.beneath.length + 1 := by
  by_cases hd : ∃ l, w.target = .directory l
  · obtain ⟨l, hl⟩ := hd
    by_cases hT : R1.getEnvVar w.TEMP = ""
    · simp [R1.main, hT, R1.started, Run.logWrite] at h
    · rw [R1.main_directory w l hT hl, R1.passes_eq] at h
      simp only [List.mem_append, List.mem_singleton, List.mem_filterMap, List.mem_filter,
        reduceCtorEq, false_or] at h
      rcases h with ⟨e, _, he⟩ | ⟨e, ⟨he, _⟩, hline⟩
      · exact absurd he (R1.fileLine_not_deletedFolder e p n)
      · obtain ⟨h1, h2, h3⟩ := R1.folderLine_deleted e p n hline
        exact ⟨l, e, hl, he, h1.symm, h2, h3⟩
  · have hno : ∀ l, w.target ≠ .directory l := fun l hl => hd ⟨l, hl⟩
    rcases R1.main_log_no_passes w hno with h' | h' | h' <;> simp [h'] at h

/-- C9 (amended) at the end-to-end scenario: the line for `sub/` carries 2. -/
theorem C9_items_removed_witness :
    LogLine.deletedFolder "/tmp/example/sub" 2 ∈ (R1.main exampleWorld).run.log
      ∧ ∃ listing e, exampleWorld.target = .directory listing ∧ e ∈ listing
        ∧ e.path = "/tmp/example/sub" ∧ fs.remove_all e = .returns 2
        ∧ 2 = e.beneath.length + 1 :=
  have hmem : LogLine.deletedFolder "/tmp/example/sub" 2 ∈ (R1.main exampleWorld).run.log := by
    have hlog : (R1.main exampleWorld).run.log
        = [LogLine.starting, LogLine.deletedFile "/tmp/example/a.txt",
            LogLine.deletedFile "/tmp/example/b.txt",
            LogLine.deletedFolder "/tmp/example/sub" 2] := rfl
    rw [hlog]
    simp
  ⟨hmem, C9_items_removed exampleWorld "/tmp/example/sub" 2 hmem⟩


namespace R1

end R1

namespace R1

end R1

theorem toDigits_length_four (y : Nat) (h1 : 1000 ≤ y) (h2 : y ≤ 9999) :
    (Nat.toDigits 10 y).length = 4 := by
  obtain ⟨k, rfl⟩ : ∃ k, y = k + 4 := ⟨y - 4, by omega⟩
  have a1 : (k + 4) / 10 ≠ 0 := by omega
  have a2 : (k + 4) / 10 / 10 ≠ 0 := by omega
  have a3 : (k + 4) / 10 / 10 / 10 ≠ 0 := by omega
  have a4 : (k + 4) / 10 / 10 / 10 / 10 = 0 := by omega
  simp [Nat.toDigits, Nat.toDigitsCore, a1, a2, a3, a4]

theorem expand_timestamp_length (t : BETA2.Tm) (h1 : 1000 ≤ t.tm_year + 1900)
    (h2 : t.tm_year + 1900 ≤ 9999) :
    (BETA2.expand "[%Y-%m-%d %H:%M:%S]".toList t).length = 21 := by
  have h : "[%Y-%m-%d %H:%M:%S]".toList
      = ['[', '%', 'Y', '-', '%', 'm', '-', '%', 'd', ' ', '%', 'H', ':', '%', 'M', ':',
          '%', 'S', ']'] := by rfl
  rw [h]
  simp [BETA2.expand, BETA2.twoDigits, toDigits_length_four _ h1 h2]

/-- C4 (the code at the failing input): a regular file and a directory that
vanish between the type test and the removal, so that `fs::remove` returns
`false` and `fs::remove_all` returns 0.  The variant with the `if (removed)`
test reports both as skipped; the variant with `timestamp()` drops the returned
value, writes "Deleted file" / "Deleted folder" and increments `filesDeleted` /
`foldersDeleted`, leaving the skip counters at 0. -/
theorem C4_unremoved_counted_as_deleted :
    fs.remove vanishedTxt = .returns false
      ∧ fs.remove_all vanishedDir = .returns 0
      ∧ (R1.fileStep BETA2.fresh vanishedTxt).counters = ⟨0, 1, 0, 0⟩
      ∧ (R1.folderStep BETA2.fresh vanishedDir).counters = ⟨0, 0, 0, 1⟩
      ∧ (BETA2.fileStep BETA2.fresh vanishedTxt).counters = ⟨1, 0, 0, 0⟩
      ∧ (BETA2.fileStep BETA2.fresh vanishedTxt).log
          = [LogLine.deletedFile "/tmp/example/gone.txt"]
      ∧ (BETA2.folderStep BETA2.fresh vanishedDir).counters = ⟨0, 0, 1, 0⟩
      ∧ (BETA2.folderStep BETA2.fresh vanishedDir).log
          = [LogLine.deletedFolder "/tmp/example/gone" 0]
      ∧ (BETA2.folderPass (BETA2.filePass [vanishedTxt, vanishedDir] BETA2.fresh).kept
          (BETA2.filePass [vanishedTxt, vanishedDir] BETA2.fresh)).counters = ⟨1, 0, 1, 0⟩ := by
  refine ⟨rfl, rfl, rfl, rfl, rfl, rfl, rfl, rfl, rfl⟩

/-- C10 (the code at every four-digit year): the text for
"[%Y-%m-%d %H:%M:%S]" has 21 characters, so with its terminator it needs 22
bytes; `strftime` is handed 20, returns 0 and leaves `buf` indeterminate, and
`timestamp` has no defined result.  The call succeeds exactly for buffers of 22
bytes or more. -/
theorem C10_timestamp_buffer (t : BETA2.Tm) (h1 : 1000 ≤ t.tm_year + 1900)
    (h2 : t.tm_year + 1900 ≤ 9999) :
    (BETA2.expand "[%Y-%m-%d %H:%M:%S]".toList t).length + 1 = 22
      ∧ BETA2.strftime 20 "[%Y-%m-%d %H:%M:%S]" t = (0, none)
      ∧ BETA2.timestamp t = none
      ∧ (∀ maxsize, (BETA2.strftime maxsize "[%Y-%m-%d %H:%M:%S]" t).1 ≠ 0 ↔ 22 ≤ maxsize) := by
  have hl := expand_timestamp_length t h1 h2
  refine ⟨by rw [hl], ?_, ?_, ?_⟩
  · simp only [BETA2.strftime, hl]
    rfl
  · simp only [BETA2.timestamp, BETA2.strftime, hl]
    rfl
  · intro maxsize
    simp only [BETA2.strftime, hl]
    by_cases hm : 22 ≤ maxsize
    · rw [if_pos hm]
      simp [hm]
    · rw [if_neg hm]
      simp [hm]

/-- C10 at 2024-01-01 12:00:00: the text is "[2024-01-01 12:00:00]", 21
characters, and `timestamp` has no defined result. -/
theorem C10_timestamp_buffer_witness :
    BETA2.expand "[%Y-%m-%d %H:%M:%S]".toList newYearNoon = "[2024-01-01 12:00:00]".toList
      ∧ BETA2.strftime 20 "[%Y-%m-%d %H:%M:%S]" newYearNoon = (0, none)
      ∧ BETA2.timestamp newYearNoon = none :=
  have h := C10_timestamp_buffer newYearNoon (by decide) (by decide)
  ⟨by rfl, h.2.1, h.2.2.1⟩

end TempTerminator
